import Mathlib

/-!
Shallow embedding of the levanter training core: the microbatch accumulator
(`grad_accum.py`), the DoReMi mixture estimator (`doremi.py`), the trainer
hook/step machinery (`trainer.py`), and the SLURM node-list expansion
(`distributed.py`), together with theorems settling the stated properties.
Tensors are modelled leafwise over exact rationals; Python exceptions are
modelled with `Except`.
-/

set_option autoImplicit false

/-- Python exceptions that the modelled code paths can raise. -/
inductive PyExc where
  | valueError
  | zeroDivisionError
  | assertionError
  | fileNotFoundError
  | unboundLocalError
deriving DecidableEq, Repr

/-- `ReductionType` from `grad_accum.py` (SUM / MEAN). -/
inductive ReductionType where
  | SUM
  | MEAN
deriving DecidableEq, Repr

/-- Model of `_reshape_for_microbatch` (`grad_accum.py` lines 121-135) on a list
carrying the batch axis: the `(Batch, ...)` leaf is reshaped into
`(AccumStep, Microbatch, ...)`, i.e. cut into `n` consecutive chunks of size `m`. -/
def reshape_for_microbatch {α : Type} (m n : ℕ) (xs : List α) : List (List α) :=
  match n with
  | 0 => []
  | k + 1 => xs.take m :: reshape_for_microbatch m k (xs.drop m)

/-- Model of the accumulation loop inside `microbatched.wrapped_fn`
(`grad_accum.py` lines 77-116): the accumulator starts at the zero produced by
`_zeros_like`, each microbatch result is added in by `eqx.apply_updates`, and a
MEAN reduction divides by `num_micro_steps` at the end. -/
def wrapped_fn {α : Type} (fn : List α → ℚ) (m n : ℕ) (reduce : ReductionType)
    (batch : List α) : ℚ :=
  let acc : ℚ := (reshape_for_microbatch m n batch).foldl (fun acc mb => acc + fn mb) 0
  match reduce with
  | ReductionType.MEAN => acc / (n : ℚ)
  | ReductionType.SUM => acc

/-- Model of `microbatched` (`grad_accum.py` lines 28-118).  In source order:
the guard `per_device_parallelism < 0` raises `ValueError`;
`num_micro_steps = batch_size // microbatch_size` raises `ZeroDivisionError`
when `microbatch_size == 0`; the wrap-time
`assert num_micro_steps * microbatch_size == batch_size` raises
`AssertionError`; otherwise the wrapper closure is returned. -/
def microbatched {α : Type} (fn : List α → ℚ) (batch_size : ℕ) (data_axis_size : ℕ)
    (per_device_parallelism : ℤ) (reduce : ReductionType) :
    Except PyExc (List α → ℚ) :=
  if per_device_parallelism < 0 then
    Except.error PyExc.valueError
  else
    let microbatch_size := data_axis_size * per_device_parallelism.toNat
    if microbatch_size = 0 then
      Except.error PyExc.zeroDivisionError
    else
      let num_micro_steps := batch_size / microbatch_size
      if num_micro_steps * microbatch_size = batch_size then
        Except.ok (wrapped_fn fn microbatch_size num_micro_steps reduce)
      else
        Except.error PyExc.assertionError

/-- Model of `compute_excess_loss` (`doremi.py` lines 108-113): the source
applies `loss_fn` to `proxy` on line 110 as well, so the `ref` argument is
never applied. `loss_fn` yields per-example losses indexed by `Ix`. -/
def compute_excess_loss {P Batch Ix : Type} (loss_fn : P → Batch → Ix → ℚ)
    (proxy : P) (ref : P) (batch : Batch) : Ix → ℚ :=
  let proxy_losses := loss_fn proxy batch
  let ref_losses := loss_fn proxy batch
  fun i => proxy_losses i - ref_losses i

/-- `initial_alpha = hax.ones(Domain) / Domain.size` from
`estimate_mixture_weights` (`doremi.py` line 105): the uniform distribution
over `k` domains. -/
def initial_alpha (k : ℕ) : Fin k → ℚ :=
  fun _ => 1 / (k : ℚ)

/-- The per-domain aggregation of clipped excess losses from `doremi_step`
(`doremi.py` lines 133-135): clip each per-example excess loss at zero from
below, then contract against the one-hot domain indicator, giving for each
domain the sum of its examples' clipped losses. -/
def per_domain_losses {B : ℕ} (k : ℕ) (domains : Fin B → Fin k)
    (excess_losses : Fin B → ℚ) : Fin k → ℚ :=
  fun d => ∑ i, (if domains i = d then (1 : ℚ) else 0) * max (excess_losses i) 0

/-- The alpha update of `doremi_step` (`doremi.py` lines 137-140):
`alpha = alpha * exp(domain_weight_step * per_domain_losses)`, renormalized to
sum 1, then smoothed toward the uniform `initial_alpha`.  The transcendental
`hax.exp` is an external numerical kernel and is passed in abstractly as
`expF`. -/
def doremi_alpha_update (k : ℕ) (expF : ℚ → ℚ) (domain_weight_step smoothing : ℚ)
    (alpha : Fin k → ℚ) (losses : Fin k → ℚ) : Fin k → ℚ :=
  let a1 : Fin k → ℚ := fun i => alpha i * expF (domain_weight_step * losses i)
  let s : ℚ := ∑ i, a1 i
  let a2 : Fin k → ℚ := fun i => a1 i / s
  fun i => (1 - smoothing) * a2 i + initial_alpha k i * smoothing

/-- A registered hook (`trainer.py` `_Hook`, lines 119-122): its callback is
abstracted by an identifier, `every` is its firing period. -/
structure Hook where
  id : ℕ
  every : ℕ
deriving DecidableEq, Repr

/-- The firing condition from `TrainerHooks.run_hooks` (`trainer.py` line 133):
a hook fires iff `force or info.step % hook.every == 0`, where `info.step` is
the completed step `state.step - 1`. -/
def hook_fires (force : Bool) (completed_step : ℕ) (h : Hook) : Bool :=
  force || (completed_step % h.every == 0)

/-- `TrainerHooks.run_hooks` (`trainer.py` lines 131-134): iterate over the
registration-ordered hook list and invoke each hook that fires; we record the
identifiers of the invoked hooks in invocation order. -/
def run_hooks (hooks : List Hook) (completed_step : ℕ) (force : Bool) : List ℕ :=
  (hooks.filter (fun h => hook_fires force completed_step h)).map Hook.id

/-- The completed steps produced by `Trainer.training_steps` (`trainer.py`
lines 373-396): the loop runs while `state.step < num_train_steps`, and each
iteration yields a `StepInfo` whose completed step is the pre-increment
`state.step`, so the completed steps are `start, start+1, ..., n-1`. -/
def training_steps_completed (start_step num_train_steps : ℕ) : List ℕ :=
  List.range' start_step (num_train_steps - start_step)

/-- The completed steps at which a hook fires during the (non-forced) hook runs
of `training_steps` for a run from `start_step` to `num_train_steps`. -/
def loop_firings (h : Hook) (start_step num_train_steps : ℕ) : List ℕ :=
  (training_steps_completed start_step num_train_steps).filter
    (fun s => hook_fires false s h)

/-- Model of `Trainer.train` (`trainer.py` lines 398-409): `for info in
self.training_steps(...)` drains the generator, then `info` is read for the
forced hook run and the return.  When the generator yields nothing the local
`info` was never assigned, so reading it raises `UnboundLocalError`; otherwise
the result is the last completed step paired with whether the forced hook run
happened (it happens exactly when `run_hooks` is true, and only on the
successful path). -/
def train_result (start_step num_train_steps : ℕ) (run_hooks_flag : Bool) :
    Except PyExc (ℕ × Bool) :=
  match (training_steps_completed start_step num_train_steps).getLast? with
  | none => Except.error PyExc.unboundLocalError
  | some last_completed => Except.ok (last_completed, run_hooks_flag)

/-- How `Trainer.initial_state` (`trainer.py` lines 270-360) resolves the
state. -/
inductive InitResolution where
  | fromFullCheckpoint
  | fromInitializeFrom
  | fromScratch
deriving DecidableEq, Repr

/-- Control flow of `Trainer.initial_state` (`trainer.py` lines 310-358).
The local variable `state` is assigned only inside the
`if do_load_checkpoint is not False:` block (lines 325-332); line 335 then
reads `state` unconditionally, so when `load_checkpoint` is `False` the read
raises `UnboundLocalError`.  Inside the block: a successful load yields the
checkpoint state; on `FileNotFoundError` the exception is re-raised when
`do_load_checkpoint` is truthy, else `state = None` and resolution falls
through to `initialize_from` (when configured) or the from-scratch
initializer. -/
def initial_state (load_checkpoint : Option Bool) (checkpoint_exists : Bool)
    (has_initialize_from : Bool) : Except PyExc InitResolution :=
  if load_checkpoint ≠ some false then
    if checkpoint_exists then Except.ok InitResolution.fromFullCheckpoint
    else if load_checkpoint = some true then Except.error PyExc.fileNotFoundError
    else if has_initialize_from then Except.ok InitResolution.fromInitializeFrom
    else Except.ok InitResolution.fromScratch
  else
    Except.error PyExc.unboundLocalError

/-- `eqx.filter`: keep the leaves selected by the mask, replacing the others by
`None`.  Parameter trees are modelled leafwise as `Fin n → ℚ`; filtered trees
as `Fin n → Option ℚ`. -/
def eqx_filter {n : ℕ} (tree : Fin n → ℚ) (mask : Fin n → Bool) : Fin n → Option ℚ :=
  fun i => if mask i then some (tree i) else none

/-- `eqx.apply_updates`: add each non-`None` update leaf to the corresponding
model leaf; `None` update leaves leave the model leaf unchanged. -/
def eqx_apply_updates {n : ℕ} (model : Fin n → ℚ) (updates : Fin n → Option ℚ) :
    Fin n → ℚ :=
  fun i =>
    match updates i with
    | none => model i
    | some u => model i + u

/-- An optax-style gradient transformation, acting leafwise: `initLeaf` builds
a per-leaf accumulator from a parameter leaf, `updLeaf` maps (gradient leaf,
accumulator leaf, parameter leaf) to (update leaf, new accumulator leaf). -/
structure LeafOptimizer where
  initLeaf : ℚ → ℚ
  updLeaf : ℚ → ℚ → ℚ → ℚ × ℚ

/-- `optimizer.init`, lifted over the `Option` structure of a filtered tree:
masked-out (`None`) leaves get no accumulator. -/
def opt_init {n : ℕ} (o : LeafOptimizer) (params : Fin n → Option ℚ) :
    Fin n → Option ℚ :=
  fun i => (params i).map o.initLeaf

/-- `optimizer.update`, lifted over the `Option` structure: an update leaf is
produced only where gradient, accumulator and parameter leaves are all
present; masked-out leaves yield `None`. -/
def opt_update {n : ℕ} (o : LeafOptimizer) (grads opt_state params : Fin n → Option ℚ) :
    (Fin n → Option ℚ) × (Fin n → Option ℚ) :=
  (fun i =>
    match grads i, opt_state i, params i with
    | some g, some s, some p => some (o.updLeaf g s p).1
    | _, _, _ => none,
   fun i =>
    match grads i, opt_state i, params i with
    | some g, some s, some p => some (o.updLeaf g s p).2
    | _, _, _ => none)

/-- `_partition_trainable_params` (`trainer.py` lines 781-800): split the model
into (trainable, non-trainable) filtered trees along the mask. -/
def partition_trainable_params {n : ℕ} (model : Fin n → ℚ) (mask : Fin n → Bool) :
    (Fin n → Option ℚ) × (Fin n → Option ℚ) :=
  (eqx_filter model mask, eqx_filter model (fun i => ! mask i))

/-- `init_optimizer_for_trainables` (`trainer.py` lines 515-518):
`optimizer.init` applied to the trainable partition only. -/
def init_optimizer_for_trainables {n : ℕ} (o : LeafOptimizer) (model : Fin n → ℚ)
    (mask : Fin n → Bool) : Fin n → Option ℚ :=
  opt_init o (partition_trainable_params model mask).1

/-- `take_opt_step` (`trainer.py` lines 810-825): filter gradients and model by
the trainable mask, run `optimizer.update` on the filtered trees, and apply
the resulting updates to the full model with `eqx.apply_updates`. -/
def take_opt_step {n : ℕ} (o : LeafOptimizer) (model : Fin n → ℚ)
    (opt_state : Fin n → Option ℚ) (grads : Fin n → ℚ) (mask : Fin n → Bool) :
    (Fin n → ℚ) × (Fin n → Option ℚ) :=
  let train_grads := eqx_filter grads mask
  let trainable_model := eqx_filter model mask
  let r := opt_update o train_grads opt_state trainable_model
  (eqx_apply_updates model r.1, r.2)

/-- The fields of `TrainerState` (`trainer.py` lines 73-95) that the optimizer
invariants concern, with parameter trees modelled leafwise. -/
structure TState (n : ℕ) where
  step : ℕ
  model : Fin n → ℚ
  opt_state : Fin n → Option ℚ
  is_trainable : Fin n → Bool

/-- `Trainer._initialize_state_from_scratch` (`trainer.py` lines 507-512):
step 0, the given model, and an optimizer state built by
`init_optimizer_for_trainables`. -/
def initialize_state_from_scratch {n : ℕ} (o : LeafOptimizer) (model : Fin n → ℚ)
    (mask : Fin n → Bool) : TState n :=
  TState.mk 0 model (init_optimizer_for_trainables o model mask) mask

/-- The state update of `Trainer._train_step` (`trainer.py` lines 470-494):
`take_opt_step` produces the new model and optimizer state, and the step
counter is incremented.  The gradient tree over the full model is supplied by
`_compute_gradients_microbatched`. -/
def train_step_state {n : ℕ} (o : LeafOptimizer) (s : TState n) (grads : Fin n → ℚ) :
    TState n :=
  let r := take_opt_step o s.model s.opt_state grads s.is_trainable
  TState.mk (s.step + 1) r.1 r.2 s.is_trainable

/-- Split a character list at the first `]`, returning the characters before it
and the remainder after it (the non-greedy body of the regex alternative
`\[.*?\]`). -/
def split_at_close : List Char → Option (List Char × List Char)
  | [] => none
  | c :: rest =>
    if c = ']' then some ([], rest)
    else (split_at_close rest).map (fun p => (c :: p.1, p.2))

/-- `re.findall(r"(\[.*?\]|[^\[\]]+)", node_list)` from `_square_brace_expand`
(`distributed.py` line 133): scan the string into bracket groups and maximal
runs of non-bracket characters (a comma is NOT a delimiter outside brackets).
An unmatched bracket character is skipped, as `findall` skips positions where
no alternative matches.  `fuel` bounds the recursion by the string length. -/
def find_parts_aux : ℕ → List Char → List (List Char)
  | 0, _ => []
  | _, [] => []
  | fuel + 1, c :: rest =>
    if c = '[' then
      match split_at_close rest with
      | some p => ('[' :: p.1 ++ [']']) :: find_parts_aux fuel p.2
      | none => find_parts_aux fuel rest
    else if c = ']' then
      find_parts_aux fuel rest
    else
      let sp := (c :: rest).span (fun ch => !(ch == '[' || ch == ']'))
      sp.1 :: find_parts_aux fuel sp.2

/-- The part list of `_square_brace_expand` for a whole string. -/
def find_parts (s : List Char) : List (List Char) :=
  find_parts_aux s.length s

/-- Python `int` on a decimal digit string, e.g. `int("007") == 7`. -/
def to_nat_digits (s : List Char) : ℕ :=
  s.foldl (fun n c => n * 10 + (c.toNat - 48)) 0

/-- Python `str.zfill`: left-pad with `'0'` to the requested width. -/
def zfill (w : ℕ) (s : List Char) : List Char :=
  List.replicate (w - s.length) '0' ++ s

/-- `generate_numbers` from `_square_brace_expand` (`distributed.py` lines
136-141): a string containing `-` is a range `start-end`, expanded inclusively
with zero-padding to the width of the `start` component; anything else is a
single number kept verbatim.  The source destructures `number_string.split("-")`
into exactly two components; we read the first two. -/
def generate_numbers (s : List Char) : List (List Char) :=
  if s.contains '-' then
    let ps := s.splitOn '-'
    let start := to_nat_digits (ps.headD [])
    let stop := to_nat_digits (ps.getD 1 [])
    let w := (ps.headD []).length
    (List.range' start (stop + 1 - start)).map (fun i => zfill w (Nat.toDigits 10 i))
  else
    [s]

/-- Python `part.strip("[]")`: drop every leading and trailing bracket
character. -/
def strip_square (s : List Char) : List Char :=
  ((s.dropWhile (fun c => c == '[' || c == ']')).reverse.dropWhile
      (fun c => c == '[' || c == ']')).reverse

/-- The per-part processing of `_square_brace_expand` (`distributed.py` lines
146-154): a `[...]` part is stripped, split on commas, and each piece expanded
by `generate_numbers`; any other part stays as a one-element list. -/
def process_part (part : List Char) : List (List Char) :=
  match part with
  | '[' :: _ =>
    if part.getLastD ' ' = ']' then
      (((strip_square part).splitOn ',').map generate_numbers).flatten
    else [part]
  | _ => [part]

/-- `itertools.product` over the processed parts followed by `"".join`
(`distributed.py` line 157): all concatenations, leftmost part varying
slowest. -/
def cart_product : List (List (List Char)) → List (List Char)
  | [] => [[]]
  | p :: ps =>
    let rest := cart_product ps
    (p.map (fun a => rest.map (fun r => a ++ r))).flatten

/-- `_square_brace_expand` (`distributed.py` lines 131-160). -/
def square_brace_expand (node_list : String) : List String :=
  (cart_product ((find_parts node_list.toList).map process_part)).map String.mk

/-- Helper: folding additions of `f` over a list starting from `a` is `a` plus
the sum of the mapped list. -/
theorem foldl_add_eq_sum {α : Type} (f : List α → ℚ) (l : List (List α)) :
    ∀ a : ℚ, l.foldl (fun acc mb => acc + f mb) a = a + (l.map f).sum := by
  induction l with
  | nil => intro a; simp
  | cons x xs ih =>
    intro a
    simp only [List.foldl_cons, List.map_cons, List.sum_cons, ih]
    ring

/-- Helper: `opt_update` produces no update leaf where the gradient leaf is
absent. -/
theorem opt_update_fst_none {n : ℕ} (o : LeafOptimizer)
    (grads opt_state params : Fin n → Option ℚ) (i : Fin n) (h : grads i = none) :
    (opt_update o grads opt_state params).1 i = none := by
  simp only [opt_update, h]

/-- C1: for every pure loss function, proxy model, reference model and batch,
`compute_excess_loss` evaluates both loss terms on the proxy model (the `ref`
argument is never applied, so the result is invariant in it), and the
per-example excess loss is zero for every example. -/
theorem c1_compute_excess_loss_zero {P Batch Ix : Type}
    (loss_fn : P → Batch → Ix → ℚ) (proxy ref : P) (batch : Batch) :
    (∀ i, compute_excess_loss loss_fn proxy ref batch i = 0) ∧
      (∀ ref2 : P, compute_excess_loss loss_fn proxy ref batch
        = compute_excess_loss loss_fn proxy ref2 batch) := by
  constructor
  · intro i
    simp [compute_excess_loss]
  · intro ref2
    rfl

/-- C2 counterexample: in a 10-step run from scratch, a hook with period 1000
fires during the loop at completed step 0 (since `0 % 1000 == 0`), so the list
of its in-loop firing steps is `[0]`, not empty as the claim states. -/
theorem c2_period1000_fires_at_step_zero :
    loop_firings (Hook.mk 2 1000) 0 10 = [0] ∧ ([0] : List ℕ) ≠ [] := by
  constructor
  · rfl
  · simp

/-- C2 (amended): registered hooks run in registration order (the invoked
hooks form a sublist of the registered list), and a hook fires exactly when
`force` is true or the completed step `state.step - 1` is divisible by its
period; concretely, for a 10-step run from scratch, a period-5 hook fires
exactly twice, at completed steps 0 and 5, and a period-1000 hook fires
exactly once during the loop — at completed step 0 — and once more when
`train` force-runs all hooks at the end. -/
theorem c2_hook_firing_rule (hooks : List Hook) (s : ℕ) (force : Bool) (h : Hook) :
    List.Sublist (run_hooks hooks s force) (hooks.map Hook.id) ∧
      (hook_fires force s h = true ↔ force = true ∨ s % h.every = 0) ∧
      loop_firings (Hook.mk 0 5) 0 10 = [0, 5] ∧
      loop_firings (Hook.mk 1 1000) 0 10 = [0] ∧
      hook_fires true 9 (Hook.mk 1 1000) = true := by
  refine ⟨?_, ?_, by rfl, by rfl, by rfl⟩
  · exact (List.filter_sublist hooks).map Hook.id
  · simp [hook_fires]

/-- C6: evaluation of `square_brace_expand` at the two inputs named by the
claim.  `"node[001-003,007]"` expands to the four hostnames, but the
bracket-free `"node001,node002"` is kept as a single string: the regex treats
a comma outside brackets as ordinary text, so the comma-separated list is
never split, even though the caller indexes the result by single hostname. -/
theorem c6_square_brace_expand_eval :
    square_brace_expand "node[001-003,007]"
        = ["node001", "node002", "node003", "node007"] ∧
      square_brace_expand "node001,node002" = ["node001,node002"] := by
  constructor
  · rfl
  · rfl

/-- C7: for every batch size `B`, device count `d > 0` and per-device
parallelism `p > 0` with `B % (d*p) ≠ 0`, `microbatched` fails at wrap time
(the `assert` on the divisibility of the batch size) and no wrapper is
returned, for any function and reduction mode. -/
theorem c7_microbatched_wrap_time_error {α : Type} (fn : List α → ℚ)
    (B d : ℕ) (p : ℤ) (reduce : ReductionType) (hd : 0 < d) (hp : 0 < p)
    (hmod : B % (d * p.toNat) ≠ 0) :
    microbatched fn B d p reduce = Except.error PyExc.assertionError := by
  have hpt : 0 < p.toNat := by omega
  have hm0 : d * p.toNat ≠ 0 := Nat.mul_ne_zero (by omega) (by omega)
  have hne : B / (d * p.toNat) * (d * p.toNat) ≠ B := by
    intro hcancel
    exact hmod (Nat.mod_eq_zero_of_dvd (Dvd.intro_left _ hcancel))
  simp only [microbatched]
  rw [if_neg (by omega : ¬ p < 0), if_neg hm0, if_neg hne]

/-- C7 witness: batch size 5 with `d = 1`, `p = 2`. -/
theorem c7_witness :
    microbatched (fun _ : List ℚ => (0 : ℚ)) 5 1 2 ReductionType.MEAN
      = Except.error PyExc.assertionError :=
  c7_microbatched_wrap_time_error _ 5 1 2 ReductionType.MEAN (by decide) (by decide)
    (by decide)

/-- C8: when the configuration sets `load_checkpoint` to `False`, the
checkpoint-loading branch of `Trainer.initial_state` is skipped, the local
variable `state` is never assigned, and the unconditional read of `state`
raises `UnboundLocalError` regardless of whether a checkpoint exists or an
initialize-from path is configured. -/
theorem c8_initial_state_unbound_local (load_checkpoint : Option Bool)
    (checkpoint_exists has_initialize_from : Bool)
    (h : load_checkpoint = some false) :
    initial_state load_checkpoint checkpoint_exists has_initialize_from
      = Except.error PyExc.unboundLocalError := by
  subst h
  simp [initial_state]

/-- C8 witness: `load_checkpoint = False` with a checkpoint present and an
initialize-from path configured. -/
theorem c8_witness :
    initial_state (some false) true true = Except.error PyExc.unboundLocalError :=
  c8_initial_state_unbound_local (some false) true true rfl

/-- C9: if `train` is called with `state.step ≥ num_train_steps`,
`training_steps` yields no `StepInfo`, and `train` raises `UnboundLocalError`
on `info` instead of returning a `StepInfo` (so in particular the final forced
hook run, which only happens on the successful path, never happens). -/
theorem c9_train_unbound_local (start_step num_train_steps : ℕ)
    (h : num_train_steps ≤ start_step) :
    training_steps_completed start_step num_train_steps = [] ∧
      ∀ rh : Bool, train_result start_step num_train_steps rh
        = Except.error PyExc.unboundLocalError := by
  have hz : num_train_steps - start_step = 0 := by omega
  refine ⟨?_, ?_⟩
  · simp [training_steps_completed, hz]
  · intro rh
    simp [train_result, training_steps_completed, hz]

/-- C9 witness: starting step 5 with `num_train_steps = 3`. -/
theorem c9_witness :
    training_steps_completed 5 3 = [] ∧
      train_result 5 3 true = Except.error PyExc.unboundLocalError :=
  ⟨(c9_train_unbound_local 5 3 (by decide)).1,
    (c9_train_unbound_local 5 3 (by decide)).2 true⟩

/-- C10: calling `microbatched` with `per_device_parallelism = 0` passes the
fail-fast guard (which rejects only strictly negative values) and fails with
`ZeroDivisionError` when computing `num_micro_steps`, which is a different
error from the guard's `ValueError`. -/
theorem c10_microbatched_zero_parallelism {α : Type} (fn : List α → ℚ)
    (B d : ℕ) (reduce : ReductionType) :
    microbatched fn B d 0 reduce = Except.error PyExc.zeroDivisionError ∧
      (Except.error PyExc.zeroDivisionError : Except PyExc (List α → ℚ))
        ≠ Except.error PyExc.valueError := by
  constructor
  · simp [microbatched]
  · simp

/-- C3: for every batch size `B` and microbatch size `m = d*p` with
`B % m = 0`, and every pure function whose full-batch result equals the
average of its results on the `B/m` microbatches, the wrapper returned by
`microbatched` with MEAN reduction applied to the full batch yields the same
result as applying the function once to the full batch. -/
theorem c3_microbatched_mean_refines {α : Type} (f : List α → ℚ) (B d : ℕ)
    (p : ℤ) (batch : List α) (hd : 0 < d) (hp : 0 < p) (hB : batch.length = B)
    (hmod : B % (d * p.toNat) = 0)
    (hf : f batch =
      ((reshape_for_microbatch (d * p.toNat) (B / (d * p.toNat)) batch).map f).sum
        / ((B / (d * p.toNat) : ℕ) : ℚ)) :
    ∃ w, microbatched f B d p ReductionType.MEAN = Except.ok w ∧
      w batch = f batch := by
  have hpt : 0 < p.toNat := by omega
  have hm0 : d * p.toNat ≠ 0 := Nat.mul_ne_zero (by omega) (by omega)
  have heq : B / (d * p.toNat) * (d * p.toNat) = B :=
    Nat.div_mul_cancel (Nat.dvd_of_mod_eq_zero hmod)
  refine ⟨wrapped_fn f (d * p.toNat) (B / (d * p.toNat)) ReductionType.MEAN, ?_, ?_⟩
  · simp only [microbatched]
    rw [if_neg (by omega : ¬ p < 0), if_neg hm0, if_pos heq]
  · simp only [wrapped_fn]
    rw [foldl_add_eq_sum, zero_add]
    exact hf.symm

/-- C3 witness: the list-mean function on the batch `[1, 2, 3, 4]` with
`d = 2`, `p = 1` (microbatch size 2, two microbatches). -/
theorem c3_witness :
    ∃ w, microbatched (fun l : List ℚ => l.sum / (l.length : ℚ)) 4 2 1
        ReductionType.MEAN = Except.ok w ∧
      w [1, 2, 3, 4] = (fun l : List ℚ => l.sum / (l.length : ℚ)) [1, 2, 3, 4] :=
  c3_microbatched_mean_refines (fun l : List ℚ => l.sum / (l.length : ℚ)) 4 2 1
    [1, 2, 3, 4] (by decide) (by decide) (by decide) (by decide)
    (by norm_num [reshape_for_microbatch])

/-- C4: the optimizer state is initialized from the trainable partition of the
model only (it equals `optimizer.init` on the filtered tree, depends only on
trainable leaves, and holds no accumulator for non-trainable leaves); a
training step computes updates only where trainable gradients exist
(non-trainable leaves receive no update leaf), leaves every non-trainable
model leaf unchanged, and its new optimizer state depends only on the
gradients of trainable leaves. -/
theorem c4_opt_state_trainable_partition {n : ℕ} (o : LeafOptimizer)
    (model model2 grads grads2 : Fin n → ℚ) (mask : Fin n → Bool) (s : TState n) :
    init_optimizer_for_trainables o model mask = opt_init o (eqx_filter model mask) ∧
      ((∀ i, mask i = true → model i = model2 i) →
        init_optimizer_for_trainables o model mask
          = init_optimizer_for_trainables o model2 mask) ∧
      (∀ i, mask i = false →
        (initialize_state_from_scratch o model mask).opt_state i = none) ∧
      (∀ i, s.is_trainable i = false →
        (opt_update o (eqx_filter grads s.is_trainable) s.opt_state
          (eqx_filter s.model s.is_trainable)).1 i = none) ∧
      (∀ i, s.is_trainable i = false →
        (train_step_state o s grads).model i = s.model i) ∧
      ((∀ i, s.is_trainable i = true → grads i = grads2 i) →
        (train_step_state o s grads).opt_state
          = (train_step_state o s grads2).opt_state) := by
  refine ⟨rfl, ?_, ?_, ?_, ?_, ?_⟩
  · intro hagree
    funext i
    by_cases hm : mask i = true
    · simp [init_optimizer_for_trainables, opt_init, partition_trainable_params,
        eqx_filter, hm, hagree i hm]
    · simp [init_optimizer_for_trainables, opt_init, partition_trainable_params,
        eqx_filter, hm]
  · intro i hm
    simp [initialize_state_from_scratch, init_optimizer_for_trainables, opt_init,
      partition_trainable_params, eqx_filter, hm]
  · intro i hm
    exact opt_update_fst_none o _ _ _ i (by simp [eqx_filter, hm])
  · intro i hm
    have hnone : (opt_update o (eqx_filter grads s.is_trainable) s.opt_state
        (eqx_filter s.model s.is_trainable)).1 i = none :=
      opt_update_fst_none o _ _ _ i (by simp [eqx_filter, hm])
    simp [train_step_state, take_opt_step, eqx_apply_updates, hnone]
  · intro hagree
    funext i
    by_cases hm : s.is_trainable i = true
    · simp [train_step_state, take_opt_step, opt_update, eqx_filter, hm,
        hagree i hm]
    · simp [train_step_state, take_opt_step, opt_update, eqx_filter, hm]

/-- C4 witness: two leaves, leaf 0 trainable and leaf 1 frozen, with an
SGD-with-accumulator optimizer; after one step the frozen leaf 1 of the model
is unchanged. -/
theorem c4_witness :
    (train_step_state (LeafOptimizer.mk (fun p => p) (fun g a p => (g, a + g + p)))
        (TState.mk 0 (fun i : Fin 2 => if i = 0 then 3 else 5)
          (fun i : Fin 2 => if i = 0 then some 0 else none)
          (fun i : Fin 2 => decide (i = 0)))
        (fun _ => 1)).model 1
      = (TState.mk 0 (fun i : Fin 2 => if i = 0 then (3 : ℚ) else 5)
          (fun i : Fin 2 => if i = 0 then some 0 else none)
          (fun i : Fin 2 => decide (i = 0))).model 1 :=
  (c4_opt_state_trainable_partition
    (LeafOptimizer.mk (fun p => p) (fun g a p => (g, a + g + p)))
    (fun _ : Fin 2 => 0) (fun _ : Fin 2 => 0) (fun _ : Fin 2 => 1)
    (fun _ : Fin 2 => 1) (fun _ : Fin 2 => false)
    (TState.mk 0 (fun i : Fin 2 => if i = 0 then 3 else 5)
      (fun i : Fin 2 => if i = 0 then some 0 else none)
      (fun i : Fin 2 => decide (i = 0)))).2.2.2.2.1 1 (by decide)

/-- C5: for every probability vector `alpha` (nonnegative, summing to 1) and
every per-domain loss vector, the DoReMi alpha update — multiply by
`exp(domain_weight_step * loss)`, renormalize, then smooth toward the uniform
initial distribution — yields an alpha summing to 1 under exact arithmetic,
where `expF` is any positive function with `expF 0 = 1` (as `exp` is); in
particular, starting from uniform alpha, one step with all-zero excess losses
leaves alpha uniform. -/
theorem c5_doremi_alpha_sum_one (k : ℕ) (hk : 0 < k) (expF : ℚ → ℚ)
    (hpos : ∀ x, 0 < expF x) (hone : expF 0 = 1) (dws sm : ℚ)
    (alpha losses : Fin k → ℚ) (hnn : ∀ i, 0 ≤ alpha i)
    (hsum : ∑ i, alpha i = 1) :
    (∑ i, doremi_alpha_update k expF dws sm alpha losses i = 1) ∧
      (∀ (B : ℕ) (domains : Fin B → Fin k),
        doremi_alpha_update k expF dws sm (initial_alpha k)
          (per_domain_losses k domains (fun _ => 0)) = initial_alpha k) := by
  have hkQ : ((k : ℚ)) ≠ 0 := Nat.cast_ne_zero.mpr (by omega)
  have huni : (∑ _j : Fin k, (1 : ℚ) / (k : ℚ)) = 1 := by
    rw [Finset.sum_const, Finset.card_univ, Fintype.card_fin, nsmul_eq_mul,
      mul_one_div, div_self hkQ]
  constructor
  · have hs : 0 < ∑ j, alpha j * expF (dws * losses j) := by
      obtain ⟨i0, hi0⟩ : ∃ i, 0 < alpha i := by
        by_contra hcon
        push_neg at hcon
        have hle : ∑ i, alpha i ≤ 0 :=
          Finset.sum_nonpos (fun i _ => hcon i)
        rw [hsum] at hle
        linarith
      exact Finset.sum_pos'
        (fun i _ => mul_nonneg (hnn i) (le_of_lt (hpos _)))
        ⟨i0, Finset.mem_univ i0, mul_pos hi0 (hpos _)⟩
    have h2 : ∑ i, (alpha i * expF (dws * losses i))
        / (∑ j, alpha j * expF (dws * losses j)) = 1 := by
      rw [← Finset.sum_div]
      exact div_self (ne_of_gt hs)
    simp only [doremi_alpha_update, initial_alpha]
    rw [Finset.sum_add_distrib, ← Finset.mul_sum, h2, ← Finset.sum_mul, huni]
    ring
  · intro B domains
    have hzero : per_domain_losses k domains (fun _ : Fin B => (0 : ℚ))
        = fun _ => 0 := by
      funext d
      simp [per_domain_losses]
    funext i
    simp only [doremi_alpha_update, hzero, mul_zero, hone, mul_one, initial_alpha,
      huni, div_one]
    ring

/-- C5 witness: two domains, uniform alpha `(1/2, 1/2)`, a positive `expF`
with `expF 0 = 1`, step size 1 and smoothing `1/10`: the updated alpha sums to
1, and with uniform alpha and all-zero excess losses the update is the
identity. -/
theorem c5_witness :
    (∑ i, doremi_alpha_update 2 (fun _ => 1) 1 (1 / 10)
        (fun _ => 1 / 2) (fun _ => 0) i = 1) ∧
      doremi_alpha_update 2 (fun _ => 1) 1 (1 / 10) (initial_alpha 2)
          (per_domain_losses 2 (fun j : Fin 3 => 0) (fun _ => 0))
        = initial_alpha 2 :=
  ⟨(c5_doremi_alpha_sum_one 2 (by decide) (fun _ => 1) (fun _ => one_pos) rfl 1
      (1 / 10) (fun _ => 1 / 2) (fun _ => 0) (fun _ => by norm_num)
      (by norm_num [Fin.sum_univ_two])).1,
    (c5_doremi_alpha_sum_one 2 (by decide) (fun _ => 1) (fun _ => one_pos) rfl 1
      (1 / 10) (fun _ => 1 / 2) (fun _ => 0) (fun _ => by norm_num)
      (by norm_num [Fin.sum_univ_two])).2 3 (fun j : Fin 3 => 0)⟩
